import Mathlib

/-!
Verification of the NiTi_Setup_Sim monitoring and report scripts.

The development shallowly embeds the log-parsing, progress-estimation and
report-loading procedures of `dashboard.py` and `py_phase4.py`.  Python
strings are modelled as lists of characters, Python floats as exact
decimal values (mantissa and power of ten), fallible operations as
`Option`/`Except` values, and the filesystem as explicit data passed to
each function.
-/

/-- Python strings (the lines of a log file) are modelled as lists of
characters. -/
abbrev PyStr := List Char

/-- Converts a Lean string literal to the character-list model. -/
def strLine (s : String) : PyStr := s.toList

/-- Helper for `splitWS`: accumulates the current run of non-whitespace
characters (in reverse) while walking the line. -/
def splitWSAux : PyStr → PyStr → List PyStr
  | [], acc => if acc = [] then [] else [acc.reverse]
  | c :: cs, acc =>
    if c.isWhitespace = true then
      if acc = [] then splitWSAux cs [] else acc.reverse :: splitWSAux cs []
    else splitWSAux cs (c :: acc)

/-- Models Python `str.split()` with no argument: splits on runs of
whitespace and never yields empty tokens. -/
def splitWS (l : PyStr) : List PyStr := splitWSAux l []

/-- Models Python `str.strip()`: removes leading and trailing whitespace. -/
def pyStrip (l : PyStr) : PyStr :=
  ((l.dropWhile Char.isWhitespace).reverse.dropWhile Char.isWhitespace).reverse

/-- Models Python `line.startswith(p)`. -/
def pyStartsWith (l p : PyStr) : Bool := p.isPrefixOf l

/-- Models Python substring containment `needle in hay`. -/
def pyContains (hay needle : PyStr) : Bool :=
  hay.tails.any (fun suf => needle.isPrefixOf suf)

/-- Numeric value of a list of decimal digit characters. -/
def digitsToNat (ds : PyStr) : ℕ :=
  ds.foldl (fun n c => 10 * n + (c.toNat - 48)) 0

/-- A Python float value as parsed from a LAMMPS log token, modelled
exactly as a decimal number `mant * 10 ^ exp`. -/
structure PyFloat where
  mant : ℤ
  exp : ℤ
deriving DecidableEq

/-- Characters that can occur in a token accepted by the modelled
Python `float` conversion. -/
def floatChar (c : Char) : Bool :=
  c.isDigit || c = '.' || c = '+' || c = '-' || c = 'e' || c = 'E'

/-- Parses the digit string of an exponent part: non-empty and all digits. -/
def parseExpDigits (ds : PyStr) : Option ℕ :=
  if ds ≠ [] ∧ ds.all Char.isDigit = true then some (digitsToNat ds) else none

/-- Parses an optionally signed exponent digit string. -/
def parseExpSigned (cs : PyStr) : Option ℤ :=
  match cs with
  | [] => none
  | d :: ds =>
    if d = '+' then (parseExpDigits ds).map (fun n => (n : ℤ))
    else if d = '-' then (parseExpDigits ds).map (fun n => -(n : ℤ))
    else (parseExpDigits (d :: ds)).map (fun n => (n : ℤ))

/-- Parses the exponent suffix of a float literal: empty, or `e`/`E`
followed by an optionally signed digit string. -/
def parseExp (r : PyStr) : Option ℤ :=
  match r with
  | [] => some 0
  | c :: cs => if c = 'e' ∨ c = 'E' then parseExpSigned cs else none

/-- Parses an optional fractional part after the integer digits `ip`;
`rest` is the remainder of the token after the integer digits.  Returns
the mantissa digits as a number, the count of fractional digits, and the
unconsumed remainder. -/
def parseFrac (rest : PyStr) (ip : PyStr) : Option (ℕ × ℕ × PyStr) :=
  match rest with
  | [] => if ip = [] then none else some (digitsToNat ip, 0, [])
  | c :: cs =>
    if c = '.' then
      if ip = [] ∧ cs.takeWhile Char.isDigit = [] then none
      else some (digitsToNat ip * 10 ^ (cs.takeWhile Char.isDigit).length
                   + digitsToNat (cs.takeWhile Char.isDigit),
                 (cs.takeWhile Char.isDigit).length,
                 cs.dropWhile Char.isDigit)
    else if ip = [] then none else some (digitsToNat ip, 0, c :: cs)

/-- Parses the unsigned mantissa (integer digits, optional fractional
part) of a float literal. -/
def parseMantissa (l : PyStr) : Option (ℕ × ℕ × PyStr) :=
  parseFrac (l.dropWhile Char.isDigit) (l.takeWhile Char.isDigit)

/-- Parses an unsigned float literal: mantissa followed by an optional
exponent consuming the rest of the token. -/
def pyFloatCore (l : PyStr) : Option PyFloat :=
  match parseMantissa l with
  | none => none
  | some (m, fl, rest) =>
    match parseExp rest with
    | none => none
    | some z => some ⟨(m : ℤ), z - (fl : ℤ)⟩

/-- Models Python `float(x)` on a whitespace-free token, as an exact
decimal value.  The modelled grammar is the numeric-literal form
(optional sign, digits with optional fractional part, optional
exponent); the `inf`/`nan` spellings and digit underscores are outside
the model. -/
def pyFloat (t : PyStr) : Option PyFloat :=
  match t with
  | [] => none
  | c :: cs =>
    if c = '+' then pyFloatCore cs
    else if c = '-' then (pyFloatCore cs).map (fun f => ⟨-f.mant, f.exp⟩)
    else pyFloatCore (c :: cs)

/-- The rational value denoted by a parsed float. -/
def PyFloat.val (f : PyFloat) : ℚ := (f.mant : ℚ) * 10 ^ f.exp

/-- Models the Python list comprehension `[float(x) for x in toks]`:
`none` when some token raises `ValueError`. -/
def parseRow : List PyStr → Option (List PyFloat)
  | [] => some []
  | t :: ts =>
    match pyFloat t, parseRow ts with
    | some v, some vs => some (v :: vs)
    | _, _ => none

/-- One extracted log section: the header tokens and the numeric rows. -/
abbrev LogSection := List PyStr × List (List PyFloat)

/-- The header-token needle `"Step"` of `parse_lammps_log`. -/
def stepStr : PyStr := strLine "Step"

/-- The header-token needle `"Temp"` of `parse_lammps_log`. -/
def tempStr : PyStr := strLine "Temp"

/-- The section-closing line marker `"Loop"` of `parse_lammps_log`. -/
def loopStr : PyStr := strLine "Loop"

/-- The comment-line marker `"#"` of `parse_lammps_log`. -/
def hashStr : PyStr := strLine "#"

/-- The loop variables of `parse_lammps_log` (dashboard.py lines 171-174). -/
structure ParseState where
  sections : List LogSection
  inData : Bool
  headers : List PyStr
  current : List (List PyFloat)

/-- Initial loop state of `parse_lammps_log`. -/
def initState : ParseState := ⟨[], false, [], []⟩

/-- Models one iteration of the `for line in content` loop of
`parse_lammps_log` (dashboard.py lines 176-192): the line is stripped; a
line containing both `Step` and `Temp` starts a new section (closing a
non-empty current one); otherwise, inside a data section, a non-empty
non-`Loop` non-comment line is converted to floats and appended when its
arity matches the headers, while a `ValueError` ends the section. -/
def stepLine (st : ParseState) (raw : PyStr) : ParseState :=
  let line := pyStrip raw
  if pyContains line stepStr = true ∧ pyContains line tempStr = true then
    { sections :=
        if st.inData = true ∧ st.current ≠ [] then
          st.sections ++ [(st.headers, st.current)]
        else st.sections,
      inData := true,
      headers := splitWS line,
      current := [] }
  else if st.inData = true then
    if line ≠ [] ∧ pyStartsWith line loopStr = false ∧ pyStartsWith line hashStr = false then
      match parseRow (splitWS line) with
      | some values =>
        if values.length = st.headers.length then
          { st with current := st.current ++ [values] }
        else st
      | none => { st with inData := false }
    else st
  else st

/-- Models the final append of a pending section after the loop of
`parse_lammps_log` (dashboard.py lines 194-196). -/
def finalizeParse (st : ParseState) : List LogSection :=
  if st.inData = true ∧ st.current ≠ [] then
    st.sections ++ [(st.headers, st.current)]
  else st.sections

/-- Models the body of `parse_lammps_log` on the list of lines of the
log file (dashboard.py lines 168-197), including the final append of a
pending section. -/
def parseLammpsLog (content : List PyStr) : List LogSection :=
  finalizeParse (List.foldl stepLine initState content)

/-- Models `parse_lammps_log` including its surrounding `try`/`except`
(dashboard.py lines 165-201): any exception while reading the file
yields the empty list. -/
def parse_lammps_log (file : Except String (List PyStr)) : List LogSection :=
  match file with
  | Except.error _ => []
  | Except.ok content => parseLammpsLog content

/-- Models the section handed to `create_plot` by `get_simulation_status`
(dashboard.py lines 306-310): `sections[-1]` when the parsed list is
non-empty, nothing otherwise. -/
def plotSectionFor (file : Except String (List PyStr)) : Option LogSection :=
  match parse_lammps_log file with
  | [] => none
  | s :: rest => (s :: rest).getLast?

/-- The filesystem state of one phase directory, as inspected by
`get_simulation_status`: whether the phase directory and its `logs`
subdirectory exist, the `*.log` file names found there, whether the
`COMPLETE` sentinel exists, and the content of the most recently
modified log file (`none` when reading it raises). -/
structure PhaseFS where
  dirExists : Bool
  logDirExists : Bool
  logFiles : List String
  completeFlag : Bool
  latestLog : Option PyStr

/-- Models the per-phase body of `get_simulation_status` (dashboard.py
lines 262-331), returning the status text and progress percent for phase
`i` given the phase's filesystem state and the list of active LAMMPS
process-id strings obtained from `pgrep`.  Plot generation performed in
the same body has no effect on the returned status or progress and is
modelled separately by `plotSectionFor`. -/
def get_phase_status (fs : PhaseFS) (i : ℕ) (activeLammps : List PyStr) : String × ℚ :=
  if fs.dirExists = true ∧ fs.logDirExists = true ∧ fs.logFiles ≠ [] then
    if fs.completeFlag = true then ("Complete", 100)
    else
      match fs.latestLog with
      | none => ("Unknown", 0)
      | some content =>
        if pyContains content (strLine "Loop time") = true then ("Complete", 100)
        else
          ((if strLine (Nat.repr i) ∈ activeLammps then "Running" else "Paused"),
           min 95 (max 10 ((content.length : ℚ) / 10000 * 100)))
  else ("Not Started", 0)

/-- A numeric table loaded by `np.loadtxt`, abstracted as rows of
rationals. -/
abbrev Table := List (List ℚ)

/-- The filesystem seen by the report generator: maps a file name to
`none` when the file does not exist, and otherwise to the outcome of
loading it (`Except.error` when the load raises). -/
abbrev ReportFS := String → Option (Except String Table)

/-- Output directory of the report generator (py_phase4.py line 26). -/
def DATA_DIR : String := "../output/"

/-- Input data file of the size-distribution analysis. -/
def PARTICLE_SIZE_FILE : String := DATA_DIR ++ "particle_size_dist.dat"

/-- Input data file of the composition analysis. -/
def COMPOSITION_FILE : String := DATA_DIR ++ "composition_analysis.dat"

/-- Input data file of the RDF structure analysis. -/
def RDF_FILE : String := DATA_DIR ++ "rdf_nanoparticles.dat"

/-- Input data file of the thermodynamic analysis. -/
def THERMO_FILE : String := DATA_DIR ++ "thermodynamic_analysis.dat"

/-- Input data file of the time-evolution analysis. -/
def EVOLUTION_FILE : String := DATA_DIR ++ "cluster_evolution.dat"

/-- Models `load_data` (py_phase4.py lines 39-48): `None` when the file
does not exist, `None` when `np.loadtxt` raises (the broad catch), and
the loaded table otherwise.  The function itself never raises. -/
def load_data (fs : ReportFS) (filename : String) : Option Table :=
  match fs filename with
  | none => none
  | some (Except.error _) => none
  | some (Except.ok t) => some t

/-- The statistics/plotting body of one analysis function, abstracted as
a function of the loaded table; it may raise (numpy or matplotlib
exceptions propagate out of the analyses that have no `try` of their
own). -/
abbrev AnalysisBody := Table → Except String (Option Table)

/-- Models `analyze_size_distribution` (py_phase4.py lines 54-121): load
the size file via `load_data` and return early (with `None`, raising
nothing) when it is missing; otherwise run the statistics body. -/
def analyze_size_distribution (body : AnalysisBody) (fs : ReportFS) :
    Except String (Option Table) :=
  match load_data fs PARTICLE_SIZE_FILE with
  | none => Except.ok none
  | some t => body t

/-- Models `analyze_composition` (py_phase4.py lines 123-190): same
early-return pattern on the composition file. -/
def analyze_composition (body : AnalysisBody) (fs : ReportFS) :
    Except String (Option Table) :=
  match load_data fs COMPOSITION_FILE with
  | none => Except.ok none
  | some t => body t

/-- Models `analyze_structure` (py_phase4.py lines 194-254): same
early-return pattern on the RDF file. -/
def analyze_structure (body : AnalysisBody) (fs : ReportFS) :
    Except String (Option Table) :=
  match load_data fs RDF_FILE with
  | none => Except.ok none
  | some t => body t

/-- Models `analyze_thermodynamics` (py_phase4.py lines 258-323): the
file is checked and read inside the function's own `try`; a missing file
skips the body and returns `None`, a raised read error is caught and
returns `None`, and exceptions of the body are caught as well. -/
def analyze_thermodynamics (body : AnalysisBody) (fs : ReportFS) :
    Except String (Option Table) :=
  match fs THERMO_FILE with
  | none => Except.ok none
  | some (Except.error _) => Except.ok none
  | some (Except.ok t) =>
    match body t with
    | Except.error _ => Except.ok none
    | Except.ok r => Except.ok r

/-- Models `analyze_time_evolution` (py_phase4.py lines 328-385): same
early-return pattern on the evolution file. -/
def analyze_time_evolution (body : AnalysisBody) (fs : ReportFS) :
    Except String (Option Table) :=
  match load_data fs EVOLUTION_FILE with
  | none => Except.ok none
  | some t => body t

/-- The five analysis bodies of the report generator. -/
structure ReportBodies where
  size : AnalysisBody
  comp : AnalysisBody
  rdf : AnalysisBody
  thermo : AnalysisBody
  evol : AnalysisBody

/-- Models the analysis sequence of `main` (py_phase4.py lines 954-971):
the five analyses run in order, an uncaught exception in one aborts the
rest, and the collected results feed report generation. -/
def main_run (b : ReportBodies) (fs : ReportFS) :
    Except String (List (Option Table)) := do
  let r1 ← analyze_size_distribution b.size fs
  let r2 ← analyze_composition b.comp fs
  let r3 ← analyze_structure b.rdf fs
  let r4 ← analyze_thermodynamics b.thermo fs
  let r5 ← analyze_time_evolution b.evol fs
  pure [r1, r2, r3, r4, r5]

/-- The names defined at module level in dashboard.py: imports (lines
5-28) and top-level assignments and function definitions (lines 35-850).
No name `background_updates` is among them, and the source defines no
such name anywhere else. -/
def dashboardTopLevelNames : List String :=
  ["os", "sys", "glob", "json", "time", "socket", "threading", "subprocess",
   "np", "matplotlib", "plt", "datetime", "Flask", "render_template",
   "jsonify", "request", "send_file", "redirect", "url_for", "session",
   "SocketIO", "pd", "logging", "argparse", "requests", "secrets", "hashlib",
   "qrcode", "BytesIO", "base64", "logger", "parser", "args", "ACCESS_KEY",
   "get_local_ip", "app", "socketio", "WORKSPACE_DIR", "DATA_DIR",
   "PHASE_DIRS", "LOG_DIRS", "PLOT_DIR", "KEY_HASH", "running_sims",
   "last_update", "remote_url", "setup_ngrok", "generate_qr_code",
   "require_auth", "parse_lammps_log", "create_plot", "get_simulation_status",
   "login", "logout", "index", "api_status", "api_launch", "get_plot",
   "get_log", "get_login_template", "get_dashboard_template",
   "get_dashboard_url", "render_login_template", "render_template_string"]

/-- The name evaluated as the thread target in the `__main__` block
(dashboard.py line 904). -/
def backgroundThreadTarget : String := "background_updates"

/-- Models Python evaluation of a bare name against the module's
top-level environment: a `NameError` when the name is not defined. -/
def pyEvalName (env : List String) (n : String) : Except String Unit :=
  if n ∈ env then Except.ok () else Except.error ("NameError: " ++ n)

/-- Models `update_thread = threading.Thread(target=background_updates)`
(dashboard.py lines 903-906): evaluating the target name in the module
environment. -/
def startUpdateThread : Except String Unit :=
  pyEvalName dashboardTopLevelNames backgroundThreadTarget

/-! Helper lemmas about the string primitives and the float grammar. -/

theorem parseRow_length : ∀ {ts : List PyStr} {vs : List PyFloat},
    parseRow ts = some vs → vs.length = ts.length := by
  intro ts
  induction ts with
  | nil =>
    intro vs h
    simp only [parseRow, Option.some.injEq] at h
    subst h
    rfl
  | cons t ts ih =>
    intro vs h
    simp only [parseRow] at h
    cases hf : pyFloat t <;> rw [hf] at h
    · exact Option.noConfusion h
    · cases hr : parseRow ts <;> rw [hr] at h
      · exact Option.noConfusion h
      · simp only [Option.some.injEq] at h
        subst h
        simp [ih hr]

theorem parseRow_isSome : ∀ {ts : List PyStr},
    (∀ t ∈ ts, (pyFloat t).isSome = true) → ∃ vs, parseRow ts = some vs := by
  intro ts
  induction ts with
  | nil => exact fun _ => ⟨[], rfl⟩
  | cons t ts ih =>
    intro h
    obtain ⟨v, hv⟩ := Option.isSome_iff_exists.mp (h t (List.mem_cons_self _ _))
    obtain ⟨vs, hvs⟩ := ih (fun x hx => h x (List.mem_cons_of_mem _ hx))
    exact ⟨v :: vs, by simp only [parseRow, hv, hvs]⟩

theorem parseExpDigits_chars {ds : PyStr} {n : ℕ} (h : parseExpDigits ds = some n) :
    ∀ c ∈ ds, floatChar c = true := by
  unfold parseExpDigits at h
  split at h
  · rename_i hcond
    intro c hc
    have hd : c.isDigit = true := List.all_eq_true.mp hcond.2 c hc
    simp [floatChar, hd]
  · exact Option.noConfusion h

theorem parseExpSigned_chars {cs : PyStr} {z : ℤ} (h : parseExpSigned cs = some z) :
    ∀ c ∈ cs, floatChar c = true := by
  match cs with
  | [] => exact fun c hc => absurd hc (List.not_mem_nil c)
  | d :: ds =>
    rw [parseExpSigned] at h
    intro c hc
    by_cases hd1 : d = '+'
    · rw [if_pos hd1] at h
      cases hpd : parseExpDigits ds <;> rw [hpd] at h
      · exact Option.noConfusion h
      · rcases List.mem_cons.mp hc with rfl | hmem
        · simp [floatChar, hd1]
        · exact parseExpDigits_chars hpd c hmem
    · rw [if_neg hd1] at h
      by_cases hd2 : d = '-'
      · rw [if_pos hd2] at h
        cases hpd : parseExpDigits ds <;> rw [hpd] at h
        · exact Option.noConfusion h
        · rcases List.mem_cons.mp hc with rfl | hmem
          · simp [floatChar, hd2]
          · exact parseExpDigits_chars hpd c hmem
      · rw [if_neg hd2] at h
        cases hpd : parseExpDigits (d :: ds) <;> rw [hpd] at h
        · exact Option.noConfusion h
        · exact parseExpDigits_chars hpd c hc

theorem parseExp_chars {r : PyStr} {z : ℤ} (h : parseExp r = some z) :
    ∀ c ∈ r, floatChar c = true := by
  match r with
  | [] => exact fun c hc => absurd hc (List.not_mem_nil c)
  | c0 :: cs =>
    rw [parseExp] at h
    split at h
    · rename_i hcond
      intro c hc
      rcases List.mem_cons.mp hc with rfl | hmem
      · rcases hcond with h1 | h1 <;> simp [floatChar, h1]
      · exact parseExpSigned_chars h c hmem
    · exact Option.noConfusion h

theorem parseFrac_chars {rest ip : PyStr} {m fl : ℕ} {rest2 : PyStr}
    (h : parseFrac rest ip = some (m, fl, rest2)) :
    ∃ mid, rest = mid ++ rest2 ∧ ∀ c ∈ mid, floatChar c = true := by
  match rest with
  | [] =>
    rw [parseFrac] at h
    split at h
    · exact Option.noConfusion h
    · simp only [Option.some.injEq, Prod.mk.injEq] at h
      exact ⟨[], by simp [h.2.2.symm], by simp⟩
  | c0 :: cs =>
    rw [parseFrac] at h
    by_cases hdot : c0 = '.'
    · rw [if_pos hdot] at h
      split at h
      · exact Option.noConfusion h
      · simp only [Option.some.injEq, Prod.mk.injEq] at h
        refine ⟨c0 :: cs.takeWhile Char.isDigit, ?_, ?_⟩
        · rw [← h.2.2]
          simp [List.takeWhile_append_dropWhile]
        · intro c hc
          rcases List.mem_cons.mp hc with rfl | hmem
          · simp [floatChar, hdot]
          · have : c.isDigit = true := List.mem_takeWhile_imp hmem
            simp [floatChar, this]
    · rw [if_neg hdot] at h
      split at h
      · exact Option.noConfusion h
      · simp only [Option.some.injEq, Prod.mk.injEq] at h
        exact ⟨[], by simp [h.2.2.symm], by simp⟩

theorem parseMantissa_chars {l : PyStr} {m fl : ℕ} {rest2 : PyStr}
    (h : parseMantissa l = some (m, fl, rest2)) :
    ∃ mid, l = mid ++ rest2 ∧ ∀ c ∈ mid, floatChar c = true := by
  unfold parseMantissa at h
  obtain ⟨mid, heq, hchars⟩ := parseFrac_chars h
  refine ⟨l.takeWhile Char.isDigit ++ mid, ?_, ?_⟩
  · rw [List.append_assoc, ← heq, List.takeWhile_append_dropWhile]
  · intro c hc
    rcases List.mem_append.mp hc with hm | hm
    · have : c.isDigit = true := List.mem_takeWhile_imp hm
      simp [floatChar, this]
    · exact hchars c hm

theorem pyFloatCore_chars {l : PyStr} {f : PyFloat} (h : pyFloatCore l = some f) :
    ∀ c ∈ l, floatChar c = true := by
  unfold pyFloatCore at h
  cases hm : parseMantissa l <;> rw [hm] at h
  · exact Option.noConfusion h
  · rename_i trip
    obtain ⟨m, fl, rest⟩ := trip
    dsimp only at h
    cases he : parseExp rest <;> rw [he] at h
    · exact Option.noConfusion h
    · obtain ⟨mid, heq, hchars⟩ := parseMantissa_chars hm
      intro c hc
      rw [heq] at hc
      rcases List.mem_append.mp hc with hm2 | hm2
      · exact hchars c hm2
      · exact parseExp_chars he c hm2

theorem pyFloat_chars {t : PyStr} {f : PyFloat} (h : pyFloat t = some f) :
    ∀ c ∈ t, floatChar c = true := by
  match t with
  | [] => exact fun c hc => absurd hc (List.not_mem_nil c)
  | c0 :: cs =>
    rw [pyFloat] at h
    intro c hc
    by_cases h1 : c0 = '+'
    · rw [if_pos h1] at h
      rcases List.mem_cons.mp hc with rfl | hm
      · simp [floatChar, h1]
      · exact pyFloatCore_chars h c hm
    · rw [if_neg h1] at h
      by_cases h2 : c0 = '-'
      · rw [if_pos h2] at h
        cases hcore : pyFloatCore cs <;> rw [hcore] at h
        · exact Option.noConfusion h
        · rcases List.mem_cons.mp hc with rfl | hm
          · simp [floatChar, h2]
          · exact pyFloatCore_chars hcore c hm
      · rw [if_neg h2] at h
        exact pyFloatCore_chars h c hc

theorem splitWSAux_mem_acc : ∀ (l acc : PyStr) (x : Char), x ∈ acc →
    ∃ t ∈ splitWSAux l acc, x ∈ t := by
  intro l
  induction l with
  | nil =>
    intro acc x hx
    rw [splitWSAux, if_neg (by intro h; subst h; cases hx)]
    exact ⟨acc.reverse, List.mem_singleton.mpr rfl, List.mem_reverse.mpr hx⟩
  | cons c cs ih =>
    intro acc x hx
    rw [splitWSAux]
    by_cases hw : c.isWhitespace = true
    · rw [if_pos hw, if_neg (by intro h; subst h; cases hx)]
      exact ⟨acc.reverse, List.mem_cons_self _ _, List.mem_reverse.mpr hx⟩
    · rw [if_neg hw]
      exact ih (c :: acc) x (List.mem_cons_of_mem _ hx)

theorem mem_splitWSAux : ∀ (l acc : PyStr) (c : Char), c ∈ l → c.isWhitespace = false →
    ∃ t ∈ splitWSAux l acc, c ∈ t := by
  intro l
  induction l with
  | nil => exact fun acc c hc _ => absurd hc (List.not_mem_nil c)
  | cons d ds ih =>
    intro acc c hc hw
    rw [splitWSAux]
    rcases List.mem_cons.mp hc with rfl | hmem
    · rw [if_neg (by simp [hw])]
      exact splitWSAux_mem_acc ds (c :: acc) c (List.mem_cons_self _ _)
    · by_cases hdw : d.isWhitespace = true
      · rw [if_pos hdw]
        by_cases hacc : acc = []
        · rw [if_pos hacc]
          exact ih [] c hmem hw
        · rw [if_neg hacc]
          obtain ⟨t, ht, hct⟩ := ih [] c hmem hw
          exact ⟨t, List.mem_cons_of_mem _ ht, hct⟩
      · rw [if_neg hdw]
        exact ih (d :: acc) c hmem hw

theorem mem_splitWS {l : PyStr} {c : Char} (hc : c ∈ l) (hw : c.isWhitespace = false) :
    ∃ t ∈ splitWS l, c ∈ t :=
  mem_splitWSAux l [] c hc hw

theorem splitWS_ne_nil {l : PyStr} {c : Char} (hc : c ∈ l) (hw : c.isWhitespace = false) :
    splitWS l ≠ [] := by
  obtain ⟨t, ht, _⟩ := mem_splitWS hc hw
  exact List.ne_nil_of_mem ht

theorem ne_nil_of_splitWS {l : PyStr} (h : splitWS l ≠ []) : l ≠ [] := by
  intro hl
  subst hl
  exact h rfl

theorem mem_dropWhile {p : Char → Bool} : ∀ {l : PyStr} {c : Char},
    c ∈ l.dropWhile p → c ∈ l := by
  intro l
  induction l with
  | nil => exact fun hc => hc
  | cons d ds ih =>
    intro c hc
    rw [List.dropWhile_cons] at hc
    by_cases hp : p d = true
    · rw [if_pos hp] at hc
      exact List.mem_cons_of_mem _ (ih hc)
    · rw [if_neg hp] at hc
      exact hc

theorem mem_pyStrip {l : PyStr} {c : Char} (hc : c ∈ pyStrip l) : c ∈ l := by
  unfold pyStrip at hc
  rw [List.mem_reverse] at hc
  have h1 := mem_dropWhile hc
  rw [List.mem_reverse] at h1
  exact mem_dropWhile h1

theorem pyContains_mem {hay needle : PyStr} (h : pyContains hay needle = true)
    {c : Char} (hc : c ∈ needle) : c ∈ hay := by
  unfold pyContains at h
  rw [List.any_eq_true] at h
  obtain ⟨suf, hsuf, hpre⟩ := h
  have h1 : needle <+: suf := List.isPrefixOf_iff_prefix.mp hpre
  have h2 : suf <:+ hay := (List.mem_tails _ _).mp hsuf
  exact h2.subset (h1.subset hc)

theorem pyStartsWith_mem {l p : PyStr} (h : pyStartsWith l p = true)
    {c : Char} (hc : c ∈ p) : c ∈ l := by
  unfold pyStartsWith at h
  exact (List.isPrefixOf_iff_prefix.mp h).subset hc

theorem no_special_char {s : PyStr}
    (hfl : ∀ t ∈ splitWS s, (pyFloat t).isSome = true)
    {c : Char} (hc : floatChar c = false) (hw : c.isWhitespace = false) :
    c ∉ s := by
  intro hmem
  obtain ⟨t, ht, hct⟩ := mem_splitWS hmem hw
  obtain ⟨f, hf⟩ := Option.isSome_iff_exists.mp (hfl t ht)
  have hfc := pyFloat_chars hf c hct
  rw [hc] at hfc
  exact Bool.noConfusion hfc

theorem floatTokens_not_header {s : PyStr}
    (hfl : ∀ t ∈ splitWS s, (pyFloat t).isSome = true) :
    ¬ (pyContains s stepStr = true ∧ pyContains s tempStr = true) := by
  intro hcont
  exact no_special_char hfl (c := 'S') (by decide) (by decide)
    (pyContains_mem hcont.1 (by decide))

theorem floatTokens_not_loop {s : PyStr}
    (hfl : ∀ t ∈ splitWS s, (pyFloat t).isSome = true) :
    pyStartsWith s loopStr = false := by
  cases hb : pyStartsWith s loopStr
  · rfl
  · exact absurd (pyStartsWith_mem hb (by decide : 'L' ∈ loopStr))
      (no_special_char hfl (by decide) (by decide))

theorem floatTokens_not_hash {s : PyStr}
    (hfl : ∀ t ∈ splitWS s, (pyFloat t).isSome = true) :
    pyStartsWith s hashStr = false := by
  cases hb : pyStartsWith s hashStr
  · rfl
  · exact absurd (pyStartsWith_mem hb (by decide : '#' ∈ hashStr))
      (no_special_char hfl (by decide) (by decide))

/-! Behaviour of one parser step and of the whole fold. -/

theorem stepLine_header (st : ParseState) (raw : PyStr)
    (hc : pyContains (pyStrip raw) stepStr = true ∧ pyContains (pyStrip raw) tempStr = true) :
    stepLine st raw =
      ⟨if st.inData = true ∧ st.current ≠ [] then
          st.sections ++ [(st.headers, st.current)]
        else st.sections,
       true, splitWS (pyStrip raw), []⟩ := by
  simp only [stepLine]
  rw [if_pos hc]

theorem stepLine_row (st : ParseState) (raw : PyStr)
    (hin : st.inData = true)
    (hfl : ∀ t ∈ splitWS (pyStrip raw), (pyFloat t).isSome = true)
    (hne : splitWS (pyStrip raw) ≠ []) :
    ∃ vs, parseRow (splitWS (pyStrip raw)) = some vs ∧
      vs.length = (splitWS (pyStrip raw)).length ∧
      stepLine st raw = (if vs.length = st.headers.length
        then { st with current := st.current ++ [vs] } else st) := by
  obtain ⟨vs, hvs⟩ := parseRow_isSome hfl
  refine ⟨vs, hvs, parseRow_length hvs, ?_⟩
  simp only [stepLine]
  rw [if_neg (floatTokens_not_header hfl), if_pos hin,
    if_pos ⟨ne_nil_of_splitWS hne, floatTokens_not_loop hfl, floatTokens_not_hash hfl⟩,
    hvs]

theorem foldl_datarows : ∀ (rows : List PyStr) (st : ParseState),
    st.inData = true → st.headers ≠ [] →
    (∀ l ∈ rows, (splitWS (pyStrip l)).length = st.headers.length ∧
      ∀ t ∈ splitWS (pyStrip l), (pyFloat t).isSome = true) →
    ∃ cur2 : List (List PyFloat),
      List.foldl stepLine st rows =
        ⟨st.sections, true, st.headers, cur2⟩ ∧
      cur2.length = st.current.length + rows.length := by
  intro rows
  induction rows with
  | nil =>
    intro st hin _ _
    obtain ⟨s1, s2, s3, s4⟩ := st
    cases hin
    exact ⟨s4, rfl, by simp⟩
  | cons l rows ih =>
    intro st hin hh hrows
    obtain ⟨s1, s2, s3, s4⟩ := st
    cases hin
    obtain ⟨hlen, hfl⟩ := hrows l (List.mem_cons_self _ _)
    have hne : splitWS (pyStrip l) ≠ [] := by
      intro h0
      rw [h0] at hlen
      exact hh (List.eq_nil_of_length_eq_zero hlen.symm)
    obtain ⟨vs, _, hvslen, hstep⟩ := stepLine_row ⟨s1, true, s3, s4⟩ l rfl hfl hne
    rw [List.foldl_cons, hstep, if_pos (by rw [hvslen]; exact hlen)]
    obtain ⟨cur2, hfold, hlen2⟩ :=
      ih ⟨s1, true, s3, s4 ++ [vs]⟩ rfl hh
        (fun x hx => hrows x (List.mem_cons_of_mem _ hx))
    refine ⟨cur2, hfold, ?_⟩
    simp only [List.length_append, List.length_cons, List.length_nil] at hlen2 ⊢
    omega

/-! The shape invariant of the extracted sections. -/

/-- A well-formed extracted section: at least one row, and every row has
the arity of the headers. -/
def SectionOK (sec : LogSection) : Prop :=
  sec.2 ≠ [] ∧ ∀ r ∈ sec.2, r.length = sec.1.length

/-- The loop invariant of `parse_lammps_log`: every closed section is
well formed and the pending rows match the current headers. -/
def StateOK (st : ParseState) : Prop :=
  (∀ sec ∈ st.sections, SectionOK sec) ∧ ∀ r ∈ st.current, r.length = st.headers.length

theorem stepLine_ok {st : ParseState} (h : StateOK st) (raw : PyStr) :
    StateOK (stepLine st raw) := by
  obtain ⟨hs, hc⟩ := h
  simp only [stepLine]
  split
  · refine ⟨?_, ?_⟩
    · intro sec hsec
      split at hsec
      · rename_i hcond
        rcases List.mem_append.mp hsec with hold | hnew
        · exact hs sec hold
        · rw [List.mem_singleton] at hnew
          subst hnew
          exact ⟨hcond.2, hc⟩
      · exact hs sec hsec
    · exact fun r hr => absurd hr (List.not_mem_nil r)
  · split
    · split
      · split
        · split
          · rename_i values hlenv
            refine ⟨hs, ?_⟩
            intro r hr
            rcases List.mem_append.mp hr with h1 | h1
            · exact hc r h1
            · rw [List.mem_singleton] at h1
              subst h1
              exact hlenv
          · exact ⟨hs, hc⟩
        · exact ⟨hs, hc⟩
      · exact ⟨hs, hc⟩
    · exact ⟨hs, hc⟩

theorem foldl_ok {st : ParseState} (h : StateOK st) (content : List PyStr) :
    StateOK (List.foldl stepLine st content) := by
  induction content generalizing st with
  | nil => exact h
  | cons l ls ih => exact ih (stepLine_ok h l)

/-! Claim theorems. -/

/-- Claim C1, counterexample: a phase directory that exists and contains
the COMPLETE sentinel but whose `logs` directory holds no `*.log` file is
reported as "Not Started" with progress 0, not as Complete/100 as the
claim requires for every phase directory containing the sentinel. -/
theorem C1_counterexample :
    (get_phase_status ⟨true, true, [], true, none⟩ 1 []).1 = "Not Started" ∧
    get_phase_status ⟨true, true, [], true, none⟩ 1 [] ≠ ("Complete", 100) := by
  refine ⟨rfl, ?_⟩
  intro h
  exact absurd (congrArg Prod.fst h) (by decide)

/-- Claim C1, amended: for every phase directory that exists, whose
`logs` subdirectory exists and contains at least one log file, and which
contains a COMPLETE sentinel file, the status poller yields
status=Complete and progress=100, regardless of log content. -/
theorem C1_theorem (fs : PhaseFS) (i : ℕ) (al : List PyStr)
    (h1 : fs.dirExists = true) (h2 : fs.logDirExists = true)
    (h3 : fs.logFiles ≠ []) (h4 : fs.completeFlag = true) :
    get_phase_status fs i al = ("Complete", 100) := by
  unfold get_phase_status
  rw [if_pos ⟨h1, h2, h3⟩, if_pos h4]

/-- Claim C1, witness: a concrete complete phase with arbitrary log
content. -/
theorem C1_witness :
    get_phase_status ⟨true, true, ["a.log"], true, some (strLine "junk")⟩ 2 [] =
      ("Complete", 100) :=
  C1_theorem _ 2 [] rfl rfl (by decide) rfl

/-- Claim C2, counterexample: after the header `Step Temp`, the row
`1 2 3` consists of three floats against two headers; the claim says it
terminates the section, but the parser stays in the data section and the
later matching row `4 5` is still appended to that same section. -/
theorem C2_counterexample :
    (List.foldl stepLine initState [strLine "Step Temp", strLine "1 2 3"]).inData = true ∧
    parseLammpsLog [strLine "Step Temp", strLine "1 2 3", strLine "4 5"] =
      [([strLine "Step", strLine "Temp"], [[⟨4, 0⟩, ⟨5, 0⟩]])] := by
  constructor
  · decide
  · decide

/-- Claim C2, amended: inside a data section, a line whose tokens all
convert to floats but whose token count differs from the header count is
skipped without being appended and without raising: the parser state is
unchanged, so the current section is not terminated. -/
theorem C2_theorem (st : ParseState) (raw : PyStr)
    (hin : st.inData = true)
    (hfl : ∀ t ∈ splitWS (pyStrip raw), (pyFloat t).isSome = true)
    (hlen : (splitWS (pyStrip raw)).length ≠ st.headers.length) :
    stepLine st raw = st := by
  simp only [stepLine]
  rw [if_neg (floatTokens_not_header hfl), if_pos hin]
  by_cases hcond : pyStrip raw ≠ [] ∧ pyStartsWith (pyStrip raw) loopStr = false ∧
      pyStartsWith (pyStrip raw) hashStr = false
  · rw [if_pos hcond]
    obtain ⟨vs, hvs⟩ := parseRow_isSome hfl
    rw [hvs]
    dsimp only
    rw [if_neg (by rw [parseRow_length hvs]; exact hlen)]
  · rw [if_neg hcond]

/-- Claim C2, witness: a concrete in-section state with two headers and
the all-float three-token row `1 2 3`. -/
theorem C2_witness :
    stepLine ⟨[], true, [strLine "Step", strLine "Temp"], []⟩ (strLine "1 2 3") =
      ⟨[], true, [strLine "Step", strLine "Temp"], []⟩ :=
  C2_theorem _ _ rfl (by decide) (by decide)

/-- Claim C3, counterexample: a `Loop time ...` line inside a data
section does not end the section; the numeric row `3 4` appearing after
it is still appended to that section, contrary to the claim. -/
theorem C3_counterexample :
    (List.foldl stepLine initState
      [strLine "Step Temp", strLine "1 2", strLine "Loop time of 4 procs"]).inData = true ∧
    parseLammpsLog
      [strLine "Step Temp", strLine "1 2", strLine "Loop time of 4 procs", strLine "3 4"] =
      [([strLine "Step", strLine "Temp"], [[⟨1, 0⟩, ⟨2, 0⟩], [⟨3, 0⟩, ⟨4, 0⟩]])] := by
  constructor
  · decide
  · decide

/-- Claim C3, amended: inside a data section, a line starting with
`Loop` or with `#` (and not itself a header line) is skipped without
being appended, but the section does not end there: the parser state is
unchanged, so numeric rows appearing after such a line are still
appended to that section. -/
theorem C3_theorem (st : ParseState) (raw : PyStr)
    (hin : st.inData = true)
    (hskip : pyStartsWith (pyStrip raw) loopStr = true ∨
      pyStartsWith (pyStrip raw) hashStr = true)
    (hnh : ¬ (pyContains (pyStrip raw) stepStr = true ∧
      pyContains (pyStrip raw) tempStr = true)) :
    stepLine st raw = st := by
  have hc : ¬ (pyStrip raw ≠ [] ∧ pyStartsWith (pyStrip raw) loopStr = false ∧
      pyStartsWith (pyStrip raw) hashStr = false) := by
    rcases hskip with h | h <;> intro hcond
    · rw [h] at hcond
      exact Bool.noConfusion hcond.2.1
    · rw [h] at hcond
      exact Bool.noConfusion hcond.2.2
  simp only [stepLine]
  rw [if_neg hnh, if_pos hin, if_neg hc]

/-- Claim C3, witness: a concrete in-section state and a `Loop time`
line. -/
theorem C3_witness :
    stepLine ⟨[], true, [strLine "Step", strLine "Temp"], []⟩
      (strLine "Loop time of 100 procs") =
      ⟨[], true, [strLine "Step", strLine "Temp"], []⟩ :=
  C3_theorem _ _ rfl (Or.inl (by decide)) (by decide)

/-- Claim C4, counterexample: a phase with log files, no sentinel, and
an unreadable latest log is reported as "Unknown" with progress 0, a
status that is neither Complete nor Not Started while the progress lies
outside [10, 95]. -/
theorem C4_counterexample :
    (get_phase_status ⟨true, true, ["a.log"], false, none⟩ 1 []).1 ≠ "Complete" ∧
    (get_phase_status ⟨true, true, ["a.log"], false, none⟩ 1 []).1 ≠ "Not Started" ∧
    ¬ (10 ≤ (get_phase_status ⟨true, true, ["a.log"], false, none⟩ 1 []).2 ∧
        (get_phase_status ⟨true, true, ["a.log"], false, none⟩ 1 []).2 ≤ 95) := by
  refine ⟨by decide, by decide, ?_⟩
  intro h
  obtain ⟨h1, -⟩ := h
  have h2 : (get_phase_status ⟨true, true, ["a.log"], false, none⟩ 1 []).2 = 0 := rfl
  rw [h2] at h1
  norm_num at h1

/-- Claim C4, amended: for every phase whose resulting status is
neither Complete, Not Started nor Unknown (i.e. Running or Paused), the
reported progress percent lies within the closed interval [10, 95]. -/
theorem C4_theorem (fs : PhaseFS) (i : ℕ) (al : List PyStr)
    (h1 : (get_phase_status fs i al).1 ≠ "Complete")
    (h2 : (get_phase_status fs i al).1 ≠ "Not Started")
    (h3 : (get_phase_status fs i al).1 ≠ "Unknown") :
    10 ≤ (get_phase_status fs i al).2 ∧ (get_phase_status fs i al).2 ≤ 95 := by
  obtain ⟨de, lde, lfs, cf, ll⟩ := fs
  cases ll with
  | none =>
    simp only [get_phase_status] at h1 h2 h3 ⊢
    split_ifs at h1 h2 h3 ⊢
    · exact absurd rfl h1
    · exact absurd rfl h3
    · exact absurd rfl h2
  | some content =>
    simp only [get_phase_status] at h1 h2 h3 ⊢
    split_ifs at h1 h2 h3 ⊢
    · exact absurd rfl h1
    · exact absurd rfl h1
    · exact ⟨le_min (by norm_num) (le_max_left _ _), min_le_left _ _⟩
    · exact ⟨le_min (by norm_num) (le_max_left _ _), min_le_left _ _⟩
    · exact absurd rfl h2

/-- Claim C4, witness: a concrete paused phase. -/
theorem C4_witness :
    10 ≤ (get_phase_status ⟨true, true, ["a.log"], false, some (strLine "hello")⟩ 1 []).2 ∧
    (get_phase_status ⟨true, true, ["a.log"], false, some (strLine "hello")⟩ 1 []).2 ≤ 95 :=
  C4_theorem _ 1 [] (by decide) (by decide) (by decide)

/-- Claim C5, counterexample: for N = 0, a log consisting of exactly one
well-formed header line followed by zero numeric rows yields no section
at all, not one section with zero rows as the claim requires. -/
theorem C5_counterexample :
    pyContains (pyStrip (strLine "Step Temp")) stepStr = true ∧
    pyContains (pyStrip (strLine "Step Temp")) tempStr = true ∧
    parseLammpsLog [strLine "Step Temp"] = [] ∧
    (parseLammpsLog [strLine "Step Temp"]).length ≠ 1 := by
  refine ⟨by decide, by decide, by decide, by decide⟩

/-- Claim C5, amended: for every log whose content is one well-formed
header line (containing `Step` and `Temp`) followed by N ≥ 1 numeric
rows, each having exactly as many float-parsable tokens as the header
has tokens, `parse_lammps_log` returns exactly one section and that
section contains exactly N rows. -/
theorem C5_theorem (hdr : PyStr) (rows : List PyStr)
    (h1 : pyContains (pyStrip hdr) stepStr = true)
    (h2 : pyContains (pyStrip hdr) tempStr = true)
    (hrows : ∀ l ∈ rows, (splitWS (pyStrip l)).length = (splitWS (pyStrip hdr)).length ∧
      ∀ t ∈ splitWS (pyStrip l), (pyFloat t).isSome = true)
    (hne : rows ≠ []) :
    ∃ rs, parseLammpsLog (hdr :: rows) = [(splitWS (pyStrip hdr), rs)] ∧
      rs.length = rows.length := by
  have hH : splitWS (pyStrip hdr) ≠ [] :=
    splitWS_ne_nil (pyContains_mem h1 (by decide : 'S' ∈ stepStr)) (by decide)
  have hstep1 : stepLine initState hdr = ⟨[], true, splitWS (pyStrip hdr), []⟩ := by
    rw [stepLine_header initState hdr ⟨h1, h2⟩]
    simp [initState]
  unfold parseLammpsLog
  rw [List.foldl_cons, hstep1]
  obtain ⟨cur2, hfold, hlen⟩ :=
    foldl_datarows rows ⟨[], true, splitWS (pyStrip hdr), []⟩ rfl hH hrows
  rw [hfold]
  have hlen2 : cur2.length = rows.length := by simpa using hlen
  have hcur : cur2 ≠ [] := by
    intro h0
    rw [h0] at hlen2
    exact hne (List.eq_nil_of_length_eq_zero hlen2.symm)
  refine ⟨cur2, ?_, hlen2⟩
  unfold finalizeParse
  rw [if_pos ⟨rfl, hcur⟩]
  simp

/-- Claim C5, witness: a concrete header with one matching row. -/
theorem C5_witness :
    ∃ rs, parseLammpsLog [strLine "Step Temp", strLine "1 2"] =
      [(splitWS (pyStrip (strLine "Step Temp")), rs)] ∧
      rs.length = ([strLine "1 2"] : List PyStr).length :=
  C5_theorem (strLine "Step Temp") [strLine "1 2"] (by decide) (by decide)
    (by decide) (by decide)

/-- Claim C6: with log files present, no COMPLETE sentinel, and a
readable latest log without the completion marker, the status is
"Running" exactly when the decimal string of the phase number is an
element of the active LAMMPS process-id list, and "Paused" otherwise. -/
theorem C6_theorem (fs : PhaseFS) (i : ℕ) (al : List PyStr) (content : PyStr)
    (h1 : fs.dirExists = true) (h2 : fs.logDirExists = true) (h3 : fs.logFiles ≠ [])
    (h4 : fs.completeFlag = false) (h5 : fs.latestLog = some content)
    (h6 : pyContains content (strLine "Loop time") = false) :
    ((get_phase_status fs i al).1 = "Running" ↔ strLine (Nat.repr i) ∈ al) ∧
    ((get_phase_status fs i al).1 = "Paused" ↔ strLine (Nat.repr i) ∉ al) := by
  unfold get_phase_status
  rw [if_pos ⟨h1, h2, h3⟩, if_neg (by simp [h4]), h5]
  dsimp only
  rw [if_neg (by simp [h6])]
  by_cases hm : strLine (Nat.repr i) ∈ al
  · rw [if_pos hm]
    exact ⟨iff_of_true rfl hm, iff_of_false (by simp) (not_not_intro hm)⟩
  · rw [if_neg hm]
    exact ⟨iff_of_false (by simp) hm, iff_of_true rfl hm⟩

/-- Claim C6, witness: phase 3 with an active process-id list containing
the string "3". -/
theorem C6_witness :
    ((get_phase_status ⟨true, true, ["a.log"], false, some (strLine "x")⟩ 3
        [strLine "3"]).1 = "Running" ↔ strLine (Nat.repr 3) ∈ [strLine "3"]) ∧
    ((get_phase_status ⟨true, true, ["a.log"], false, some (strLine "x")⟩ 3
        [strLine "3"]).1 = "Paused" ↔ strLine (Nat.repr 3) ∉ [strLine "3"]) :=
  C6_theorem _ 3 _ (strLine "x") rfl rfl (by decide) rfl rfl (by decide)

/-- Helper: the optional last element of a list ending in a given
element. -/
theorem getLast?_append_single {α : Type} : ∀ (l : List α) (a : α),
    (l ++ [a]).getLast? = some a := by
  intro l a
  induction l with
  | nil => rfl
  | cons x xs ih =>
    cases xs with
    | nil => rfl
    | cons y ys =>
      rw [List.cons_append, List.cons_append, List.getLast?_cons_cons, ← List.cons_append]
      exact ih

/-- Claim C7: when `parse_lammps_log` extracts more than one section,
the status poller hands exactly the last section of the returned list to
plot generation; the earlier sections do not reach it. -/
theorem C7_theorem (file : Except String (List PyStr)) (pre : List LogSection)
    (last : LogSection)
    (h : parse_lammps_log file = pre ++ [last]) (hpre : pre ≠ []) :
    plotSectionFor file = some last := by
  unfold plotSectionFor
  rw [h]
  cases pre with
  | nil => exact absurd rfl hpre
  | cons q pre2 =>
    rw [List.cons_append]
    dsimp only
    rw [← List.cons_append]
    exact getLast?_append_single _ _

/-- Claim C7, witness: a log with two sections; plot generation receives
the second. -/
theorem C7_witness :
    plotSectionFor (Except.ok [strLine "Step Temp", strLine "1 2",
        strLine "Step Temp Press", strLine "3 4 5"]) =
      some ([strLine "Step", strLine "Temp", strLine "Press"],
        [[⟨3, 0⟩, ⟨4, 0⟩, ⟨5, 0⟩]]) :=
  C7_theorem _ [([strLine "Step", strLine "Temp"], [[⟨1, 0⟩, ⟨2, 0⟩]])]
    ([strLine "Step", strLine "Temp", strLine "Press"], [[⟨3, 0⟩, ⟨4, 0⟩, ⟨5, 0⟩]])
    (by decide) (by decide)

/-- Claim C8: for every input data file that does not exist, `load_data`
returns `None` without raising; for each of the five analyses, a missing
input file makes that analysis return early (`None`) without raising;
`main` composes whatever the five analyses return, so a skipped analysis
never prevents the remaining ones from running; and `parse_lammps_log`
returns the empty list whenever an exception occurs while reading the
log file. -/
theorem C8_theorem (b : ReportBodies) (fs : ReportFS) (e : String) :
    (∀ f, fs f = none → load_data fs f = none) ∧
    (fs PARTICLE_SIZE_FILE = none →
      analyze_size_distribution b.size fs = Except.ok none) ∧
    (fs COMPOSITION_FILE = none →
      analyze_composition b.comp fs = Except.ok none) ∧
    (fs RDF_FILE = none →
      analyze_structure b.rdf fs = Except.ok none) ∧
    (fs THERMO_FILE = none →
      analyze_thermodynamics b.thermo fs = Except.ok none) ∧
    (fs EVOLUTION_FILE = none →
      analyze_time_evolution b.evol fs = Except.ok none) ∧
    (∀ r1 r2 r3 r4 r5 : Option Table,
      analyze_size_distribution b.size fs = Except.ok r1 →
      analyze_composition b.comp fs = Except.ok r2 →
      analyze_structure b.rdf fs = Except.ok r3 →
      analyze_thermodynamics b.thermo fs = Except.ok r4 →
      analyze_time_evolution b.evol fs = Except.ok r5 →
      main_run b fs = Except.ok [r1, r2, r3, r4, r5]) ∧
    parse_lammps_log (Except.error e) = [] := by
  have hld : ∀ f, fs f = none → load_data fs f = none := by
    intro f hf
    unfold load_data
    rw [hf]
  refine ⟨hld, ?_, ?_, ?_, ?_, ?_, ?_, rfl⟩
  · intro h
    unfold analyze_size_distribution
    rw [hld _ h]
  · intro h
    unfold analyze_composition
    rw [hld _ h]
  · intro h
    unfold analyze_structure
    rw [hld _ h]
  · intro h
    unfold analyze_thermodynamics
    rw [h]
  · intro h
    unfold analyze_time_evolution
    rw [hld _ h]
  · intro r1 r2 r3 r4 r5 h1 h2 h3 h4 h5
    unfold main_run
    rw [h1, h2, h3, h4, h5]
    rfl

/-- Claim C8, witness: with every input data file missing, each of the
five analyses skips its section without raising and `main` still
completes, running all of them. -/
theorem C8_witness :
    load_data (fun _ => none) PARTICLE_SIZE_FILE = none ∧
    analyze_size_distribution (fun t => Except.ok (some t)) (fun _ => none) =
      Except.ok none ∧
    analyze_composition (fun t => Except.ok (some t)) (fun _ => none) =
      Except.ok none ∧
    analyze_structure (fun t => Except.ok (some t)) (fun _ => none) =
      Except.ok none ∧
    analyze_thermodynamics (fun t => Except.ok (some t)) (fun _ => none) =
      Except.ok none ∧
    analyze_time_evolution (fun t => Except.ok (some t)) (fun _ => none) =
      Except.ok none ∧
    main_run ⟨fun t => Except.ok (some t), fun t => Except.ok (some t),
      fun t => Except.ok (some t), fun t => Except.ok (some t),
      fun t => Except.ok (some t)⟩ (fun _ => none) =
      Except.ok [none, none, none, none, none] ∧
    parse_lammps_log (Except.error "e") = [] := by
  obtain ⟨hA, h1, h2, h3, h4, h5, hB, hC⟩ :=
    C8_theorem ⟨fun t => Except.ok (some t), fun t => Except.ok (some t),
      fun t => Except.ok (some t), fun t => Except.ok (some t),
      fun t => Except.ok (some t)⟩ (fun _ => none) "e"
  exact ⟨hA PARTICLE_SIZE_FILE rfl, h1 rfl, h2 rfl, h3 rfl, h4 rfl, h5 rfl,
    hB none none none none none (h1 rfl) (h2 rfl) (h3 rfl) (h4 rfl) (h5 rfl), hC⟩

/-- Claim C9: the dashboard's main block builds its background update
thread from the name `background_updates`, which is defined nowhere at
module level, so evaluating the thread target raises a NameError and no
periodic update routine ever runs. -/
theorem C9_theorem :
    backgroundThreadTarget ∉ dashboardTopLevelNames ∧
    startUpdateThread = Except.error ("NameError: " ++ backgroundThreadTarget) := by
  refine ⟨by decide, ?_⟩
  rfl

/-- Claim C10: every section returned by `parse_lammps_log` contains at
least one row, and every row of a section is a list of floats whose
length equals the number of header tokens of that section. -/
theorem C10_theorem (content : List PyStr) (hs : List PyStr)
    (rows : List (List PyFloat))
    (hmem : (hs, rows) ∈ parseLammpsLog content) :
    rows ≠ [] ∧ ∀ r ∈ rows, r.length = hs.length := by
  have hok : StateOK (List.foldl stepLine initState content) :=
    foldl_ok ⟨fun sec hsec => absurd hsec (List.not_mem_nil sec),
      fun r hr => absurd hr (List.not_mem_nil r)⟩ content
  obtain ⟨hsec, hcur⟩ := hok
  unfold parseLammpsLog finalizeParse at hmem
  split at hmem
  · rename_i hcond
    rcases List.mem_append.mp hmem with hold | hnew
    · exact hsec _ hold
    · rw [List.mem_singleton] at hnew
      injection hnew with e1 e2
      subst e1
      subst e2
      exact ⟨hcond.2, hcur⟩
  · exact hsec _ hmem

/-- Claim C10, witness: the single section of a two-line log. -/
theorem C10_witness :
    ([[(⟨1, 0⟩ : PyFloat), ⟨2, 0⟩]] : List (List PyFloat)) ≠ [] ∧
    ∀ r ∈ ([[(⟨1, 0⟩ : PyFloat), ⟨2, 0⟩]] : List (List PyFloat)),
      r.length = ([strLine "Step", strLine "Temp"] : List PyStr).length :=
  C10_theorem [strLine "Step Temp", strLine "1 2"] [strLine "Step", strLine "Temp"]
    [[⟨1, 0⟩, ⟨2, 0⟩]] (by decide)
